import Mathlib

/-!
Verification of the numeric and filesystem helper functions of
`neuralmagicML/utils/helpers.py`.

Embedding conventions:
* Python floats are idealised as exact numbers: `ℚ` for the list helpers
  (`bucket_iterable`, `interpolated_integral`) and `ℝ` for `interpolate`,
  whose `inverse_cubic` branch takes a real cube root (`x ** (1/3)`).
* Python's `round` (banker's rounding, half to even) is `pyRound`.
* Python's `list.sort` is a stable sort; it is modelled with
  `List.insertionSort`, which is stable for the total preorders used here.
  A call that sorts its argument in place is modelled by returning the
  final state of the list alongside the result.
* Fallible code returns `Except PyError`: `interpolate` raises
  `ValueError` for an unknown curve name, and Python float division
  raises `ZeroDivisionError` when the divisor is zero, modelled by an
  explicit divisor test before the division.  Python's `** (1/3)` on a
  strictly negative base returns a complex number, and the comparison
  `y_per <= 0.0 + epsilon` then raises `TypeError`: the embedding
  signals `typeError` at the point the complex value arises.
* The filesystem seen by `create_unique_dir` is abstracted to the set of
  suffix numbers already taken for the probed base path, as a `List ℕ`.
-/

/-- Python's built-in `round` on an exact value: round half to even. -/
def pyRound (x : ℚ) : ℤ :=
  if x - ⌊x⌋ < 1/2 then ⌊x⌋
  else if 1/2 < x - ⌊x⌋ then ⌊x⌋ + 1
  else if ⌊x⌋ % 2 = 0 then ⌊x⌋ else ⌊x⌋ + 1

/-- The loop `for bucket in range(num_buckets)` of `bucket_iterable`
(helpers.py lines 130-133): every bucket except the last takes
`buckets_count` values off the front of `val_list`; the last bucket takes
everything that remains.  The list of bucket indices still to process is
passed explicitly, as `range(num_buckets)` produces it. -/
def bucket_loop {α : Type} (num_buckets buckets_count : ℕ) :
    List ℕ → List α → List (ℤ × α)
  | [], _ => []
  | bucket :: rest_buckets, val_list =>
    let add_vals := if bucket < num_buckets - 1 then val_list.take buckets_count else val_list
    let rest := if bucket < num_buckets - 1 then val_list.drop buckets_count else []
    add_vals.map (fun v => ((bucket : ℤ), v)) ++
      bucket_loop num_buckets buckets_count rest_buckets rest

/-- `bucket_iterable` (helpers.py lines 95-135): sort, carve off the first
`round(edge_percent * len)` values into bucket `-1`, then distribute the
rest over `num_buckets` buckets of `round(len / num_buckets)` values each,
the last bucket absorbing the remainder.  `sort_key` plays the role of the
Python `key` argument (`id` for the default `None`). -/
def bucket_iterable {α : Type} (val : List α) (num_buckets : ℕ)
    (edge_percent : ℚ) (sort_highest : Bool) (sort_key : α → ℚ) : List (ℤ × α) :=
  let val_list := val.insertionSort
    (fun a b => if sort_highest then sort_key b ≤ sort_key a else sort_key a ≤ sort_key b)
  let edge_count : ℤ := pyRound (edge_percent * val_list.length)
  let bucketed_edge :=
    if 0 < edge_count then (val_list.take edge_count.toNat).map (fun v => ((-1 : ℤ), v)) else []
  let val_rest := if 0 < edge_count then val_list.drop edge_count.toNat else val_list
  let buckets_count := pyRound ((val_rest.length : ℚ) / (num_buckets : ℚ))
  bucketed_edge ++ bucket_loop num_buckets buckets_count.toNat (List.range num_buckets) val_rest

/-- One trapezoid of `interpolated_integral` (helpers.py lines 215-216):
`area = y_val * x_dist + (y_next - y_val) * x_dist / 2.0`. -/
def trapezoid_area (p q : ℚ × ℚ) : ℚ :=
  p.2 * (q.1 - p.1) + (q.2 - p.2) * (q.1 - p.1) / 2

/-- The accumulation loop of `interpolated_integral` (helpers.py lines
210-217): sum `trapezoid_area` over consecutive points of the list. -/
def integral_loop : List (ℚ × ℚ) → ℚ
  | p :: q :: rest => trapezoid_area p q + integral_loop (q :: rest)
  | _ => 0

/-- `interpolated_integral` (helpers.py lines 193-219).  `measurements.sort`
mutates the caller's list, so the embedding returns the integral together
with the final state of the list. -/
def interpolated_integral (measurements : List (ℚ × ℚ)) : ℚ × List (ℚ × ℚ) :=
  match measurements with
  | [] => (0, [])
  | [m] => (m.2, [m])
  | m₁ :: m₂ :: rest =>
    let sorted := (m₁ :: m₂ :: rest).insertionSort (fun a b => a.1 ≤ b.1)
    (integral_loop sorted, sorted)

/-- Spec-side trapezoid sum, following the specification's words: the sum
over consecutive points of `(y_i + y_(i+1)) / 2 * (x_(i+1) - x_i)`.  To be
compared with `integral_loop`, the formula the code computes. -/
def trapezoid_spec_sum : List (ℚ × ℚ) → ℚ
  | p :: q :: rest => (p.2 + q.2) / 2 * (q.1 - p.1) + trapezoid_spec_sum (q :: rest)
  | _ => 0

/-- `convert_to_bool` (helpers.py lines 57-68), string branch:
`bool(val) and "f" not in val.lower() and "0" not in val.lower()`.
`val.lower()` maps `Char.toLower` over the characters; membership of a
one-character string is membership of the character. -/
def convert_to_bool (val : String) : Bool :=
  decide (val ≠ "") && !((val.data.map Char.toLower).contains 'f')
    && !((val.data.map Char.toLower).contains '0')

/-- Python's `"{:04d}".format(n)`: the decimal digits of `n`, left-padded
with zeros to at least four characters. -/
def pad4 (n : ℕ) : String :=
  String.mk (List.replicate (4 - (toString n).length) '0') ++ toString n

/-- The candidate path `"{}-{:04d}".format(path, check_number)` probed by
`create_unique_dir` (helpers.py line 261). -/
def format_unique (path : String) (n : ℕ) : String :=
  path ++ "-" ++ pad4 n

/-- Dropping the elements below a raised threshold `c` strictly shrinks the
filter as long as `c` itself occurs: the termination measure of
`create_unique_dir`. -/
theorem length_filter_ge_succ_lt (fs : List ℕ) (c : ℕ) (h : c ∈ fs) :
    (fs.filter (fun m => c + 1 ≤ m)).length < (fs.filter (fun m => c ≤ m)).length := by
  induction fs with
  | nil => cases h
  | cons a t ih =>
    rcases List.mem_cons.mp h with ha | ht
    · subst ha
      have hmono : ∀ l : List ℕ,
          (l.filter (fun m => c + 1 ≤ m)).length ≤ (l.filter (fun m => c ≤ m)).length := by
        intro l
        induction l with
        | nil => simp
        | cons b tb ihb =>
          by_cases h1 : c + 1 ≤ b
          · have h2 : c ≤ b := Nat.le_of_succ_le h1
            simp [List.filter_cons, h1, h2]; omega
          · by_cases h2 : c ≤ b <;> simp [List.filter_cons, h1, h2] <;> omega
      have h1 : ¬ (c + 1 ≤ c) := by omega
      have h2 : c ≤ c := le_refl c
      simp [List.filter_cons, h1, h2]
      exact Nat.lt_succ_of_le (hmono t)
    · have hlt := ih ht
      by_cases h1 : c + 1 ≤ a
      · have h2 : c ≤ a := Nat.le_of_succ_le h1
        simp [List.filter_cons, h1, h2]; omega
      · by_cases h2 : c ≤ a <;> simp [List.filter_cons, h1, h2] <;> omega

/-- `create_unique_dir` (helpers.py lines 254-266): probe
`"{}-{:04d}".format(path, check_number)` and return it when no such path
exists, else retry with the next number.  `fs` is the set of suffix
numbers already taken for `path`; the function performs no write. -/
def create_unique_dir (fs : List ℕ) (path : String) (check_number : ℕ) : String :=
  let check_path := format_unique path check_number
  if check_number ∉ fs then check_path
  else create_unique_dir fs path (check_number + 1)
termination_by (fs.filter (fun m => check_number ≤ m)).length
decreasing_by
  exact length_filter_ge_succ_lt fs check_number (not_not.mp (by assumption))

/-- The error conditions `interpolate` can signal: Python's `ValueError`
with its message, the `ZeroDivisionError` of float division, and the
`TypeError` raised when a complex `y_per` (from a negative base under
`** (1/3)`) reaches the `<=` comparison against a float. -/
inductive PyError where
  | valueError (msg : String)
  | zeroDivisionError
  | typeError
deriving DecidableEq

/-- `INTERPOLATION_FUNCS` (helpers.py line 138). -/
def INTERPOLATION_FUNCS : List String := ["linear", "cubic", "inverse_cubic"]

/-- The message of the `ValueError` raised for an unknown curve name
(helpers.py lines 159-163), with `INTERPOLATION_FUNCS` formatted as Python
prints a list of strings. -/
def unsupported_msg (inter_func : String) : String :=
  "unsupported inter_func given of " ++ inter_func ++
    " must be one of ['linear', 'cubic', 'inverse_cubic']"

/-- `sys.float_info.epsilon`, the machine epsilon of a double: `2 ** -52`. -/
noncomputable def float_epsilon : ℝ := 1 / 2 ^ 52

/-- The curve map of `interpolate` (helpers.py lines 170-181), from the
normalised `x_per` to `y_per` in `(0,0)-(1,1)` space.  For
`inverse_cubic` with `1 - x_per < 0`, Python's `(1 - x_per) ** (1/3)`
returns a complex number and the subsequent `y_per <= 0.0 + epsilon`
comparison in `interpolate` raises `TypeError`; the embedding signals
that error here, where the complex value arises.  The final `else`
raises; it is unreachable after the membership check in `interpolate`. -/
noncomputable def curve_y_per (inter_func : String) (x_per : ℝ) : Except PyError ℝ :=
  if inter_func = "linear" then .ok x_per
  else if inter_func = "cubic" then .ok (1 - (1 - x_per) ^ (3 : ℕ))
  else if inter_func = "inverse_cubic" then
    if 1 - x_per < 0 then .error .typeError
    else .ok (1 - Real.rpow (1 - x_per) (1/3))
  else .error (.valueError ("unsupported inter_func given of " ++ inter_func ++ " in interpolate"))

/-- `interpolate` (helpers.py lines 141-190): validate the curve name,
normalise `x_cur` to `x_per` (float division, raising `ZeroDivisionError`
when `x1 - x0 == 0`), map through the curve, and clamp to `y0` / `y1`
within `float_epsilon` of the ends before scaling into `(y0, y1)`. -/
noncomputable def interpolate (x_cur x0 x1 y0 y1 : ℝ) (inter_func : String) : Except PyError ℝ :=
  if inter_func ∉ INTERPOLATION_FUNCS then .error (.valueError (unsupported_msg inter_func))
  else if x1 - x0 = 0 then .error .zeroDivisionError
  else
    match curve_y_per inter_func ((x_cur - x0) / (x1 - x0)) with
    | .error e => .error e
    | .ok y_per =>
      if y_per ≤ 0 + float_epsilon then .ok y0
      else if 1 - float_epsilon ≤ y_per then .ok y1
      else .ok (y_per * (y1 - y0) + y0)

instance : IsTotal (ℚ × ℚ) (fun a b => a.1 ≤ b.1) :=
  ⟨fun a b => le_total a.1 b.1⟩

instance : IsTrans (ℚ × ℚ) (fun a b => a.1 ≤ b.1) :=
  ⟨fun _ _ _ h₁ h₂ => le_trans h₁ h₂⟩

/-- The formula the code accumulates, `y*dx + (y'-y)*dx/2`, sums to the
specification's trapezoid formula `(y+y')/2*dx` segment by segment. -/
theorem integral_loop_eq_trapezoid_spec_sum (l : List (ℚ × ℚ)) :
    integral_loop l = trapezoid_spec_sum l := by
  induction l with
  | nil => rfl
  | cons p t ih =>
    cases t with
    | nil => rfl
    | cons q r =>
      simp only [integral_loop, trapezoid_spec_sum]
      rw [ih]
      have : trapezoid_area p q = (p.2 + q.2) / 2 * (q.1 - p.1) := by
        unfold trapezoid_area; ring
      rw [this]

/-- C2: for every list of at least two measurement pairs, the integral is
the sum of the trapezoid areas `(y_i + y_(i+1)) / 2 * (x_(i+1) - x_i)`
over consecutive points of the list sorted by x ascending. -/
theorem interpolated_integral_eq_trapezoid_spec (l : List (ℚ × ℚ)) (h : 2 ≤ l.length) :
    (interpolated_integral l).1 =
      trapezoid_spec_sum (l.insertionSort (fun a b => a.1 ≤ b.1)) := by
  match l with
  | [] => norm_num at h
  | [m] => norm_num at h
  | m₁ :: m₂ :: rest =>
    simp only [interpolated_integral]
    exact integral_loop_eq_trapezoid_spec_sum _

/-- Witness for C2 at the triangle `[(0,0),(1,1),(2,0)]`, whose integral
is 1 as the specification states. -/
theorem interpolated_integral_eq_trapezoid_spec_witness :
    (interpolated_integral [((0:ℚ), (0:ℚ)), (1, 1), (2, 0)]).1 =
      trapezoid_spec_sum
        (([((0:ℚ), (0:ℚ)), (1, 1), (2, 0)]).insertionSort (fun a b => a.1 ≤ b.1)) ∧
    (interpolated_integral [((0:ℚ), (0:ℚ)), (1, 1), (2, 0)]).1 = 1 :=
  ⟨interpolated_integral_eq_trapezoid_spec _ (by decide),
   by norm_num [interpolated_integral, List.insertionSort, List.orderedInsert,
     integral_loop, trapezoid_area]⟩

/-- C7: the integral of the empty list is 0 and of a singleton is its y
value; in particular `interpolated_integral [(5, 3)] = 3`. -/
theorem interpolated_integral_trivial_cases :
    (∀ x y : ℚ, (interpolated_integral [(x, y)]).1 = y) ∧
    (interpolated_integral ([] : List (ℚ × ℚ))).1 = 0 ∧
    (interpolated_integral [((5:ℚ), (3:ℚ))]).1 = 3 :=
  ⟨fun _ _ => rfl, rfl, rfl⟩

/-- C9: on a list of at least two measurements the call leaves the
caller's list reordered: the final list is a permutation of the input,
sorted by x ascending. -/
theorem interpolated_integral_sorts_in_place (l : List (ℚ × ℚ)) (h : 2 ≤ l.length) :
    ((interpolated_integral l).2).Perm l ∧
    List.Sorted (fun a b : ℚ × ℚ => a.1 ≤ b.1) (interpolated_integral l).2 := by
  match l with
  | [] => norm_num at h
  | [m] => norm_num at h
  | m₁ :: m₂ :: rest =>
    constructor
    · simpa only [interpolated_integral] using
        List.perm_insertionSort (fun a b : ℚ × ℚ => a.1 ≤ b.1) (m₁ :: m₂ :: rest)
    · simpa only [interpolated_integral] using
        List.sorted_insertionSort (fun a b : ℚ × ℚ => a.1 ≤ b.1) (m₁ :: m₂ :: rest)

/-- Witness for C9: `[(2,3),(0,1)]` really is reordered, not left
unchanged. -/
theorem interpolated_integral_sorts_in_place_witness :
    (((interpolated_integral [((2:ℚ), (3:ℚ)), (0, 1)]).2).Perm [((2:ℚ), (3:ℚ)), (0, 1)] ∧
      List.Sorted (fun a b : ℚ × ℚ => a.1 ≤ b.1)
        (interpolated_integral [((2:ℚ), (3:ℚ)), (0, 1)]).2) ∧
    (interpolated_integral [((2:ℚ), (3:ℚ)), (0, 1)]).2 ≠ [((2:ℚ), (3:ℚ)), (0, 1)] :=
  ⟨interpolated_integral_sorts_in_place _ (by decide), by decide⟩

/-- `create_unique_dir` returns `format_unique path n` for the first free
`n` at or above `check_number`; proved by induction on the number of taken
suffixes at or above it. -/
theorem create_unique_dir_finds (path : String) :
    ∀ (k : ℕ) (fs : List ℕ) (c : ℕ), (fs.filter (fun m => c ≤ m)).length ≤ k →
      ∃ n, n ∉ fs ∧ c ≤ n ∧ create_unique_dir fs path c = format_unique path n := by
  intro k
  induction k with
  | zero =>
    intro fs c hk
    by_cases hc : c ∈ fs
    · exfalso
      have hmem : c ∈ fs.filter (fun m => c ≤ m) := List.mem_filter.mpr ⟨hc, by simp⟩
      have := List.length_pos.mpr (List.ne_nil_of_mem hmem)
      omega
    · exact ⟨c, hc, le_refl c, by rw [create_unique_dir]; simp [hc]⟩
  | succ k ih =>
    intro fs c hk
    by_cases hc : c ∈ fs
    · have hlt := length_filter_ge_succ_lt fs c hc
      obtain ⟨n, hn, hcn, heq⟩ := ih fs (c + 1) (by omega)
      refine ⟨n, hn, by omega, ?_⟩
      rw [create_unique_dir]
      simp only [hc, not_true_eq_false, if_false]
      exact heq
    · exact ⟨c, hc, le_refl c, by rw [create_unique_dir]; simp [hc]⟩

/-- C4 amended: with no filesystem change the function is pure, so two
successive calls return the same path; that path's suffix number is fresh
(not taken, at or above `check_number`), and once it is taken the next
call returns a path with a different suffix number. -/
theorem create_unique_dir_fresh (fs : List ℕ) (path : String) (check_number : ℕ) :
    ∃ n, n ∉ fs ∧ check_number ≤ n ∧
      create_unique_dir fs path check_number = format_unique path n ∧
      ∃ m, m ∉ n :: fs ∧ m ≠ n ∧
        create_unique_dir (n :: fs) path check_number = format_unique path m := by
  obtain ⟨n, hn, hcn, heq⟩ :=
    create_unique_dir_finds path (fs.filter (fun m => check_number ≤ m)).length fs
      check_number le_rfl
  obtain ⟨m, hm, hcm, heq2⟩ :=
    create_unique_dir_finds path ((n :: fs).filter (fun m => check_number ≤ m)).length
      (n :: fs) check_number le_rfl
  exact ⟨n, hn, hcn, heq,
    m, hm, fun h => hm (by rw [h]; exact List.mem_cons_self n fs), heq2⟩

/-- C4 counterexample: on an unchanged filesystem (here: empty) two
successive calls on base path "run" both return "run-0000" -- the claimed
two distinct paths do not exist. -/
theorem create_unique_dir_twice_not_distinct :
    create_unique_dir [] "run" 0 = "run-0000" ∧
    ¬(create_unique_dir [] "run" 0 ≠ create_unique_dir [] "run" 0) := by
  constructor
  · rw [create_unique_dir]
    simp only [List.not_mem_nil, not_false_eq_true, if_true]
    decide
  · exact fun h => h rfl

/-- A valid code point round-trips through `Char.ofNat`. -/
theorem char_toNat_ofNat_valid (m : ℕ) (h : m.isValidChar) : (Char.ofNat m).toNat = m := by
  rw [Char.ofNat, dif_pos h]
  rfl

/-- Characters with equal code points are equal. -/
theorem char_toNat_inj {a b : Char} (h : a.toNat = b.toNat) : a = b := by
  have h2 := congrArg Char.ofNat h
  rwa [Char.ofNat_toNat, Char.ofNat_toNat] at h2

/-- Lowercasing yields letter f exactly for the two cases of f. -/
theorem char_toLower_eq_f_iff (c : Char) : c.toLower = 'f' ↔ c = 'f' ∨ c = 'F' := by
  rw [Char.toLower]
  split
  case isTrue hcond =>
    have hval : (c.toNat + 32).isValidChar := Or.inl (by omega)
    constructor
    · intro h
      have h2 := congrArg Char.toNat h
      rw [char_toNat_ofNat_valid _ hval] at h2
      have hF : c.toNat = ('F').toNat := by
        have : ('f').toNat = 102 := rfl
        have : ('F').toNat = 70 := rfl
        omega
      exact Or.inr (char_toNat_inj hF)
    · rintro (rfl | rfl)
      · exact absurd hcond (by decide)
      · decide
  case isFalse hcond =>
    constructor
    · exact fun h => Or.inl h
    · rintro (rfl | rfl)
      · rfl
      · exact absurd (by decide) hcond

/-- Lowercasing yields the digit zero only for the digit zero itself. -/
theorem char_toLower_eq_zero_iff (c : Char) : c.toLower = '0' ↔ c = '0' := by
  rw [Char.toLower]
  split
  case isTrue hcond =>
    have hval : (c.toNat + 32).isValidChar := Or.inl (by omega)
    constructor
    · intro h
      have h2 := congrArg Char.toNat h
      rw [char_toNat_ofNat_valid _ hval] at h2
      have : ('0').toNat = 48 := rfl
      omega
    · rintro rfl
      exact absurd hcond (by decide)
  case isFalse hcond =>
    exact Iff.rfl

/-- C10: `convert_to_bool` returns False exactly for the strings that are
empty or contain the letter f (either case) or the digit 0; strings such
as "no" map to True, while "off" and "10" map to False. -/
theorem convert_to_bool_false_iff :
    (∀ s : String, convert_to_bool s = false ↔
      s = "" ∨ ∃ c ∈ s.data, c = 'f' ∨ c = 'F' ∨ c = '0') ∧
    convert_to_bool "no" = true ∧ convert_to_bool "off" = false ∧
    convert_to_bool "10" = false ∧ convert_to_bool "" = false := by
  refine ⟨fun s => ?_, by decide, by decide, by decide, by decide⟩
  have htrue : convert_to_bool s = true ↔
      (¬ s = "" ∧ ∀ c ∈ s.data, ¬(c = 'f' ∨ c = 'F' ∨ c = '0')) := by
    unfold convert_to_bool
    simp only [Bool.and_eq_true, decide_eq_true_eq, Bool.not_eq_true', ne_eq]
    constructor
    · rintro ⟨⟨hne, hf⟩, h0⟩
      refine ⟨hne, fun c hc => ?_⟩
      have hf2 : ∀ x ∈ s.data, ¬ x.toLower = 'f' := by simpa using hf
      have h02 : ∀ x ∈ s.data, ¬ x.toLower = '0' := by simpa using h0
      rintro (rfl | rfl | rfl)
      · exact hf2 _ hc (by decide)
      · exact hf2 _ hc (by decide)
      · exact h02 _ hc (by decide)
    · rintro ⟨hne, hall⟩
      have hf2 : ∀ x ∈ s.data, ¬ x.toLower = 'f' := by
        intro x hx hlow
        rcases (char_toLower_eq_f_iff x).mp hlow with rfl | rfl
        · exact hall _ hx (Or.inl rfl)
        · exact hall _ hx (Or.inr (Or.inl rfl))
      have h02 : ∀ x ∈ s.data, ¬ x.toLower = '0' := by
        intro x hx hlow
        exact hall _ hx (Or.inr (Or.inr ((char_toLower_eq_zero_iff x).mp hlow)))
      exact ⟨⟨hne, by simpa using hf2⟩, by simpa using h02⟩
  rw [Bool.eq_false_iff, Ne, htrue]
  push_neg
  constructor
  · intro h
    by_cases hs : s = ""
    · exact Or.inl hs
    · obtain ⟨c, hc, hor⟩ := h hs
      exact Or.inr ⟨c, hc, hor⟩
  · rintro (rfl | ⟨c, hc, hor⟩)
    · intro h; exact absurd rfl h
    · intro _; exact ⟨c, hc, hor⟩

/-- The values of the bucket loop's output, over the remaining bucket
indices `range' b k`, are a permutation of the remaining list: each
non-final bucket takes a prefix, the final bucket takes the rest. -/
theorem bucket_loop_snd_perm {α : Type} (nb bc : ℕ) :
    ∀ (k b : ℕ) (vl : List α), b + k = nb → 0 < k →
      ((bucket_loop nb bc (List.range' b k) vl).map Prod.snd).Perm vl := by
  intro k
  induction k with
  | zero => intro b vl hbk h0; omega
  | succ k ih =>
    intro b vl hbk h0
    rw [List.range'_succ]
    by_cases hk : k = 0
    · subst hk
      have hlast : ¬ b < nb - 1 := by omega
      simp only [bucket_loop, hlast, if_false]
      simp [bucket_loop]
    · have hmid : b < nb - 1 := by omega
      simp only [bucket_loop, hmid, if_true]
      rw [List.map_append, List.map_map]
      have hid : (Prod.snd ∘ fun v : α => ((b : ℤ), v)) = id := rfl
      rw [hid, List.map_id]
      have hperm := ih (b + 1) (vl.drop bc) (by omega) (by omega)
      exact ((List.Perm.append_left (vl.take bc) hperm).trans
        (by rw [List.take_append_drop]))

/-- C3: for any input list, any `num_buckets >= 1` and any `edge_percent`,
the (bucket, value) pairs of `bucket_iterable` carry each input element
exactly once: the projection to values is a permutation of the input. -/
theorem bucket_iterable_partition {α : Type} (val : List α) (num_buckets : ℕ)
    (edge_percent : ℚ) (sort_highest : Bool) (sort_key : α → ℚ) (h : 1 ≤ num_buckets) :
    ((bucket_iterable val num_buckets edge_percent sort_highest sort_key).map
      Prod.snd).Perm val := by
  unfold bucket_iterable
  set r := fun a b =>
    if sort_highest then sort_key b ≤ sort_key a else sort_key a ≤ sort_key b with hr
  set sorted := val.insertionSort r with hsorted
  have hsp : sorted.Perm val := List.perm_insertionSort r val
  have hloop : ∀ vl : List α,
      ((bucket_loop num_buckets
        (pyRound ((vl.length : ℚ) / (num_buckets : ℚ))).toNat
        (List.range num_buckets) vl).map Prod.snd).Perm vl := by
    intro vl
    rw [List.range_eq_range']
    exact bucket_loop_snd_perm num_buckets _ num_buckets 0 vl (by omega) (by omega)
  by_cases hpos : 0 < pyRound (edge_percent * (sorted.length : ℚ))
  · simp only [hpos, if_true]
    rw [List.map_append, List.map_map]
    have hid : (Prod.snd ∘ fun v : α => ((-1 : ℤ), v)) = id := rfl
    rw [hid, List.map_id]
    exact ((List.Perm.append_left _ (hloop _)).trans
      (by rw [List.take_append_drop])).trans hsp
  · simp only [hpos, if_false]
    rw [List.nil_append]
    exact (hloop _).trans hsp

example : pyRound ((5:ℚ)/100 * ((100:ℕ) : ℚ)) = 5 := by
  have h5 : (5:ℚ)/100 * ((100:ℕ) : ℚ) = 5 := by push_cast; ring
  rw [h5]
  have hf : ⌊(5:ℚ)⌋ = 5 := by norm_num
  norm_num [pyRound, hf]

example : pyRound (((95:ℕ) : ℚ) / ((3:ℕ) : ℚ)) = 32 := by
  have hf : ⌊((95:ℕ):ℚ) / ((3:ℕ):ℚ)⌋ = 31 := by
    rw [Int.floor_eq_iff]
    constructor <;> push_cast <;> norm_num
  norm_num [pyRound, hf]

/-- Python: `round(0.05 * 100) == 5`. -/
theorem pyRound_edge100 : pyRound ((5:ℚ)/100 * ((100:ℕ) : ℚ)) = 5 := by
  have h5 : (5:ℚ)/100 * ((100:ℕ) : ℚ) = 5 := by push_cast; ring
  rw [h5]
  have hf : ⌊(5:ℚ)⌋ = 5 := by norm_num
  norm_num [pyRound, hf]

/-- Python: `round(95 / 3) == 32`. -/
theorem pyRound_95_3 : pyRound ((95:ℚ) / 3) = 32 := by
  have hf : ⌊(95:ℚ) / 3⌋ = 31 := by
    rw [Int.floor_eq_iff]
    constructor <;> norm_num
  norm_num [pyRound, hf]

/-- Counting pairs with a fixed first component over a constant tag. -/
theorem countP_map_const_fst (i k : ℤ) (xs : List ℚ) :
    ((xs.map (fun v => (k, v))).countP (fun p => decide (p.1 = i))) =
      if k = i then xs.length else 0 := by
  rw [List.countP_map]
  by_cases hk : k = i
  · subst hk
    simp [Function.comp]
  · simp [Function.comp, hk]

/-- The bucket loop for three buckets of 32: buckets 0 and 1 take 32
values each, bucket 2 takes the rest. -/
theorem bucket_loop_3_32 (vl : List ℚ) :
    bucket_loop 3 32 [0, 1, 2] vl =
      (vl.take 32).map (fun v => ((0:ℤ), v)) ++
        (((vl.drop 32).take 32).map (fun v => ((1:ℤ), v)) ++
          (((vl.drop 32).drop 32).map (fun v => ((2:ℤ), v)) ++ [])) := by
  simp only [bucket_loop]
  norm_num

/-- C5: on any list of exactly 100 elements, `bucket_iterable` with
`edge_percent = 0.05` and `num_buckets = 3` produces exactly 100 pairs:
5 in the edge bucket -1 and the other 95 split over buckets 0, 1, 2. -/
theorem bucket_iterable_100 (l : List ℚ) (h : l.length = 100) :
    (bucket_iterable l 3 ((5:ℚ)/100) true id).length = 100 ∧
    ((bucket_iterable l 3 ((5:ℚ)/100) true id).countP (fun p => decide (p.1 = -1))) = 5 ∧
    ((bucket_iterable l 3 ((5:ℚ)/100) true id).countP (fun p => decide (p.1 = 0))) +
      ((bucket_iterable l 3 ((5:ℚ)/100) true id).countP (fun p => decide (p.1 = 1))) +
      ((bucket_iterable l 3 ((5:ℚ)/100) true id).countP (fun p => decide (p.1 = 2))) = 95 := by
  have heq : bucket_iterable l 3 ((5:ℚ)/100) true id =
      ((l.insertionSort (fun a b : ℚ => if true = true then id b ≤ id a else id a ≤ id b)).take 5).map
          (fun v => ((-1:ℤ), v)) ++
        bucket_loop 3 32 [0, 1, 2]
          ((l.insertionSort (fun a b : ℚ => if true = true then id b ≤ id a else id a ≤ id b)).drop 5) := by
    simp only [bucket_iterable]
    rw [List.length_insertionSort, h, pyRound_edge100]
    norm_num
    rw [h]
    norm_num [pyRound_95_3, show Int.toNat 5 = 5 from rfl, show Int.toNat 32 = 32 from rfl,
      show List.range 3 = [0, 1, 2] from rfl]
  set sorted := l.insertionSort (fun a b : ℚ => if true = true then id b ≤ id a else id a ≤ id b)
    with hsorted
  have hlen : sorted.length = 100 := by rw [hsorted, List.length_insertionSort]; exact h
  have hrest : (sorted.drop 5).length = 95 := by rw [List.length_drop, hlen]
  have ht5 : (sorted.take 5).length = 5 := by rw [List.length_take]; omega
  have ht32 : ((sorted.drop 5).take 32).length = 32 := by rw [List.length_take]; omega
  have hd32 : ((sorted.drop 5).drop 32).length = 63 := by rw [List.length_drop]; omega
  have ht32b : (((sorted.drop 5).drop 32).take 32).length = 32 := by rw [List.length_take]; omega
  have hd32b : (((sorted.drop 5).drop 32).drop 32).length = 31 := by rw [List.length_drop]; omega
  rw [heq, bucket_loop_3_32]
  refine ⟨?_, ?_, ?_⟩
  · simp only [List.length_append, List.length_map, List.length_nil]
    omega
  · simp only [List.countP_append, countP_map_const_fst, List.countP_nil]
    norm_num [ht5]
  · simp only [List.countP_append, countP_map_const_fst, List.countP_nil, List.length_take,
      List.length_drop, hlen]
    norm_num

/-- Witness for C3 at a concrete three-element list with two buckets. -/
theorem bucket_iterable_partition_witness :
    ((bucket_iterable [(3:ℚ), 1, 2] 2 (1/10) true id).map Prod.snd).Perm [(3:ℚ), 1, 2] :=
  bucket_iterable_partition [(3:ℚ), 1, 2] 2 (1/10) true id (by norm_num)

/-- Witness for C5 at a concrete 100-element list. -/
theorem bucket_iterable_100_witness :
    (bucket_iterable (List.replicate 100 (0:ℚ)) 3 ((5:ℚ)/100) true id).length = 100 ∧
    ((bucket_iterable (List.replicate 100 (0:ℚ)) 3 ((5:ℚ)/100) true id).countP
      (fun p => decide (p.1 = -1))) = 5 ∧
    ((bucket_iterable (List.replicate 100 (0:ℚ)) 3 ((5:ℚ)/100) true id).countP
        (fun p => decide (p.1 = 0))) +
      ((bucket_iterable (List.replicate 100 (0:ℚ)) 3 ((5:ℚ)/100) true id).countP
        (fun p => decide (p.1 = 1))) +
      ((bucket_iterable (List.replicate 100 (0:ℚ)) 3 ((5:ℚ)/100) true id).countP
        (fun p => decide (p.1 = 2))) = 95 :=
  bucket_iterable_100 (List.replicate 100 (0:ℚ)) (by simp)

/-- The machine epsilon is positive. -/
theorem float_epsilon_pos : 0 < float_epsilon := by norm_num [float_epsilon]

/-- The machine epsilon is below one half. -/
theorem float_epsilon_lt_half : float_epsilon < 1 / 2 := by norm_num [float_epsilon]

/-- With a supported curve and a non-degenerate interval, `interpolate`
reduces to the clamped scaling of the curve's `y_per`. -/
theorem interpolate_ok_form (x_cur x0 x1 y0 y1 : ℝ) (f : String)
    (hf : f ∈ INTERPOLATION_FUNCS) (hsub : x1 - x0 ≠ 0) (y_per : ℝ)
    (hy : curve_y_per f ((x_cur - x0) / (x1 - x0)) = Except.ok y_per) :
    interpolate x_cur x0 x1 y0 y1 f =
      if y_per ≤ 0 + float_epsilon then Except.ok y0
      else if 1 - float_epsilon ≤ y_per then Except.ok y1
      else Except.ok (y_per * (y1 - y0) + y0) := by
  unfold interpolate
  rw [if_neg (not_not_intro hf), if_neg hsub, hy]

/-- The three supported curve names. -/
theorem mem_interpolation_funcs {f : String} (hf : f ∈ INTERPOLATION_FUNCS) :
    f = "linear" ∨ f = "cubic" ∨ f = "inverse_cubic" := by
  simpa [INTERPOLATION_FUNCS] using hf

/-- A supported curve either maps `x_per` to a real `y_per`, or -- for
`inverse_cubic` on a negative base -- signals the `TypeError`. -/
theorem curve_y_per_ok_or_type_error (f : String) (hf : f ∈ INTERPOLATION_FUNCS) (xp : ℝ) :
    (∃ yp, curve_y_per f xp = Except.ok yp) ∨
      curve_y_per f xp = Except.error PyError.typeError := by
  rcases mem_interpolation_funcs hf with rfl | rfl | rfl
  · exact Or.inl ⟨xp, by simp [curve_y_per]⟩
  · exact Or.inl ⟨1 - (1 - xp) ^ (3 : ℕ), by simp [curve_y_per]⟩
  · by_cases hneg : 1 - xp < 0
    · exact Or.inr (by simp [curve_y_per, hneg])
    · exact Or.inl ⟨1 - Real.rpow (1 - xp) (1/3), by simp [curve_y_per, hneg]⟩

/-- The linear and cubic curves map every `x_per` without error. -/
theorem curve_y_per_linear_cubic_ok (f : String) (hf : f = "linear" ∨ f = "cubic") (xp : ℝ) :
    ∃ yp, curve_y_per f xp = Except.ok yp := by
  rcases hf with rfl | rfl
  · exact ⟨xp, by simp [curve_y_per]⟩
  · exact ⟨1 - (1 - xp) ^ (3 : ℕ), by simp [curve_y_per]⟩

/-- With `x_per ≤ 1` (so a non-negative base for the cube root) every
supported curve maps `x_per` without error. -/
theorem curve_y_per_ok_of_le_one (f : String) (hf : f ∈ INTERPOLATION_FUNCS) (xp : ℝ)
    (hxp : xp ≤ 1) : ∃ yp, curve_y_per f xp = Except.ok yp := by
  rcases mem_interpolation_funcs hf with rfl | rfl | rfl
  · exact ⟨xp, by simp [curve_y_per]⟩
  · exact ⟨1 - (1 - xp) ^ (3 : ℕ), by simp [curve_y_per]⟩
  · have hneg : ¬ (1 - xp < 0) := by linarith
    exact ⟨1 - Real.rpow (1 - xp) (1/3), by simp [curve_y_per, hneg]⟩

/-- For `inverse_cubic` past the right end (`x_per > 1`) the base of the
cube root is negative: Python's power is complex and the subsequent
comparison raises `TypeError`. -/
theorem curve_y_per_inverse_cubic_error (xp : ℝ) (hxp : 1 < xp) :
    curve_y_per "inverse_cubic" xp = Except.error PyError.typeError := by
  have hneg : 1 - xp < 0 := by linarith
  simp [curve_y_per, hneg]

/-- An error from the curve map propagates through `interpolate`. -/
theorem interpolate_err_form (x_cur x0 x1 y0 y1 : ℝ) (f : String)
    (hf : f ∈ INTERPOLATION_FUNCS) (hsub : x1 - x0 ≠ 0) (e : PyError)
    (hy : curve_y_per f ((x_cur - x0) / (x1 - x0)) = Except.error e) :
    interpolate x_cur x0 x1 y0 y1 f = Except.error e := by
  unfold interpolate
  rw [if_neg (not_not_intro hf), if_neg hsub, hy]

/-- C1: linear interpolation returns `y0` at `x0` and `y1` at `x1`; in
general, for every supported curve, whenever the curve's normalised
progress value `y_per` lies within `float_epsilon` of 0 the result is
exactly `y0`, and within `float_epsilon` of 1 it is exactly `y1`. -/
theorem interpolate_endpoints_and_band (x0 x1 y0 y1 : ℝ) (h : x1 ≠ x0) :
    interpolate x0 x0 x1 y0 y1 "linear" = Except.ok y0 ∧
    interpolate x1 x0 x1 y0 y1 "linear" = Except.ok y1 ∧
    ∀ f ∈ INTERPOLATION_FUNCS, ∀ x_cur y_per : ℝ,
      curve_y_per f ((x_cur - x0) / (x1 - x0)) = Except.ok y_per →
      (y_per ≤ 0 + float_epsilon → interpolate x_cur x0 x1 y0 y1 f = Except.ok y0) ∧
      (1 - float_epsilon ≤ y_per → interpolate x_cur x0 x1 y0 y1 f = Except.ok y1) := by
  have hsub : x1 - x0 ≠ 0 := sub_ne_zero.mpr h
  have hlin : ("linear" : String) ∈ INTERPOLATION_FUNCS := by simp [INTERPOLATION_FUNCS]
  refine ⟨?_, ?_, ?_⟩
  · have hy : curve_y_per "linear" ((x0 - x0) / (x1 - x0)) = Except.ok 0 := by
      rw [show (x0 - x0) / (x1 - x0) = 0 by rw [sub_self, zero_div]]
      simp [curve_y_per]
    rw [interpolate_ok_form x0 x0 x1 y0 y1 "linear" hlin hsub 0 hy, if_pos]
    have := float_epsilon_pos
    linarith
  · have hy : curve_y_per "linear" ((x1 - x0) / (x1 - x0)) = Except.ok 1 := by
      rw [div_self hsub]
      simp [curve_y_per]
    rw [interpolate_ok_form x1 x0 x1 y0 y1 "linear" hlin hsub 1 hy, if_neg, if_pos]
    · have := float_epsilon_pos
      linarith
    · have := float_epsilon_lt_half
      intro hcon
      linarith
  · intro f hf x_cur y_per hy
    constructor
    · intro hle
      rw [interpolate_ok_form x_cur x0 x1 y0 y1 f hf hsub y_per hy, if_pos hle]
    · intro hge
      have hnot : ¬ (y_per ≤ 0 + float_epsilon) := by
        have := float_epsilon_lt_half
        intro hcon
        linarith
      rw [interpolate_ok_form x_cur x0 x1 y0 y1 f hf hsub y_per hy, if_neg hnot, if_pos hge]

/-- Witness for C1 on the interval `[0, 1]` with `y0 = 5`, `y1 = 7`. -/
theorem interpolate_endpoints_and_band_witness :
    interpolate 0 0 1 5 7 "linear" = Except.ok 5 ∧
    interpolate 1 0 1 5 7 "linear" = Except.ok 7 :=
  ⟨(interpolate_endpoints_and_band 0 1 5 7 (by norm_num)).1,
   (interpolate_endpoints_and_band 0 1 5 7 (by norm_num)).2.1⟩

/-- C6: `interpolate` raises the unsupported-option `ValueError` exactly
for curve names outside `INTERPOLATION_FUNCS`, and the message names the
invalid value and every allowed curve name. -/
theorem interpolate_unsupported_error_iff (x_cur x0 x1 y0 y1 : ℝ) (f : String) :
    (interpolate x_cur x0 x1 y0 y1 f =
        Except.error (PyError.valueError (unsupported_msg f)) ↔
      f ∉ INTERPOLATION_FUNCS) ∧
    (∃ s t : String, unsupported_msg f = s ++ f ++ t) ∧
    ∀ g ∈ INTERPOLATION_FUNCS, ∃ u v : String, unsupported_msg f = u ++ g ++ v := by
  refine ⟨⟨?_, ?_⟩,
    ⟨"unsupported inter_func given of ",
     " must be one of ['linear', 'cubic', 'inverse_cubic']", rfl⟩, ?_⟩
  · intro heq
    by_contra hf
    by_cases hsub : x1 - x0 = 0
    · unfold interpolate at heq
      rw [if_neg (not_not_intro hf), if_pos hsub] at heq
      simp at heq
    · rcases curve_y_per_ok_or_type_error f hf ((x_cur - x0) / (x1 - x0)) with ⟨yp, hyp⟩ | hyp
      · rw [interpolate_ok_form x_cur x0 x1 y0 y1 f hf hsub yp hyp] at heq
        split_ifs at heq
      · rw [interpolate_err_form x_cur x0 x1 y0 y1 f hf hsub PyError.typeError hyp] at heq
        simp at heq
  · intro hf
    unfold interpolate
    rw [if_pos hf]
  · intro g hg
    rcases mem_interpolation_funcs hg with rfl | rfl | rfl
    · refine ⟨"unsupported inter_func given of " ++ f ++ " must be one of ['",
        "', 'cubic', 'inverse_cubic']", ?_⟩
      unfold unsupported_msg
      simp only [String.append_assoc]
      congr 2
    · refine ⟨"unsupported inter_func given of " ++ f ++ " must be one of ['linear', '",
        "', 'inverse_cubic']", ?_⟩
      unfold unsupported_msg
      simp only [String.append_assoc]
      congr 2
    · refine ⟨"unsupported inter_func given of " ++ f ++ " must be one of ['linear', 'cubic', '",
        "']", ?_⟩
      unfold unsupported_msg
      simp only [String.append_assoc]
      congr 2

/-- C8 counterexample: with the supported curve `inverse_cubic` and the
non-degenerate interval `[0, 1]`, the call at `x_cur = 2` raises rather
than returning a value: Python computes `(1 - 2.0) ** (1/3)` as a
complex number and the epsilon comparison then raises `TypeError`. -/
theorem interpolate_inverse_cubic_raises :
    interpolate 2 0 1 5 7 "inverse_cubic" = Except.error PyError.typeError ∧
    ¬ ∃ y : ℝ, interpolate 2 0 1 5 7 "inverse_cubic" = Except.ok y := by
  have hmem : ("inverse_cubic" : String) ∈ INTERPOLATION_FUNCS := by
    simp [INTERPOLATION_FUNCS]
  have hsub : (1 : ℝ) - 0 ≠ 0 := by norm_num
  have herr : curve_y_per "inverse_cubic" (((2 : ℝ) - 0) / (1 - 0)) =
      Except.error PyError.typeError := by
    rw [show ((2 : ℝ) - 0) / (1 - 0) = 2 by norm_num]
    exact curve_y_per_inverse_cubic_error 2 (by norm_num)
  have h1 := interpolate_err_form 2 0 1 5 7 "inverse_cubic" hmem hsub PyError.typeError herr
  refine ⟨h1, ?_⟩
  rintro ⟨y, hy⟩
  rw [h1] at hy
  exact Except.noConfusion hy

/-- C8 amended: for every supported curve the only division by zero is
the degenerate interval: when `x1 == x0` the call raises
`ZeroDivisionError`, and when `x1 != x0` it never does.  With
`x1 != x0`, the linear and cubic curves return a value for every
`x_cur`, and so does `inverse_cubic` whenever the normalised progress is
at most 1; for `inverse_cubic` beyond 1 the call raises `TypeError`
(a complex power reaching a float comparison), not a division by
zero. -/
theorem interpolate_zero_division_iff (f : String) (hf : f ∈ INTERPOLATION_FUNCS)
    (x_cur x0 x1 y0 y1 : ℝ) :
    (x1 = x0 → interpolate x_cur x0 x1 y0 y1 f = Except.error PyError.zeroDivisionError) ∧
    (x1 ≠ x0 → interpolate x_cur x0 x1 y0 y1 f ≠ Except.error PyError.zeroDivisionError) ∧
    (x1 ≠ x0 → (f = "linear" ∨ f = "cubic") →
      ∃ y, interpolate x_cur x0 x1 y0 y1 f = Except.ok y) ∧
    (x1 ≠ x0 → (x_cur - x0) / (x1 - x0) ≤ 1 →
      ∃ y, interpolate x_cur x0 x1 y0 y1 f = Except.ok y) ∧
    (x1 ≠ x0 → f = "inverse_cubic" → 1 < (x_cur - x0) / (x1 - x0) →
      interpolate x_cur x0 x1 y0 y1 f = Except.error PyError.typeError) := by
  refine ⟨?_, ?_, ?_, ?_, ?_⟩
  · intro heq
    unfold interpolate
    rw [if_neg (not_not_intro hf), if_pos (by rw [heq, sub_self])]
  · intro hne
    have hsub : x1 - x0 ≠ 0 := sub_ne_zero.mpr hne
    rcases curve_y_per_ok_or_type_error f hf ((x_cur - x0) / (x1 - x0)) with ⟨yp, hyp⟩ | hyp
    · rw [interpolate_ok_form x_cur x0 x1 y0 y1 f hf hsub yp hyp]
      split_ifs <;> simp
    · rw [interpolate_err_form x_cur x0 x1 y0 y1 f hf hsub PyError.typeError hyp]
      simp
  · intro hne hlc
    have hsub : x1 - x0 ≠ 0 := sub_ne_zero.mpr hne
    obtain ⟨yp, hyp⟩ := curve_y_per_linear_cubic_ok f hlc ((x_cur - x0) / (x1 - x0))
    rw [interpolate_ok_form x_cur x0 x1 y0 y1 f hf hsub yp hyp]
    split_ifs <;> exact ⟨_, rfl⟩
  · intro hne hxp
    have hsub : x1 - x0 ≠ 0 := sub_ne_zero.mpr hne
    obtain ⟨yp, hyp⟩ := curve_y_per_ok_of_le_one f hf ((x_cur - x0) / (x1 - x0)) hxp
    rw [interpolate_ok_form x_cur x0 x1 y0 y1 f hf hsub yp hyp]
    split_ifs <;> exact ⟨_, rfl⟩
  · intro hne hfe hxp
    have hsub : x1 - x0 ≠ 0 := sub_ne_zero.mpr hne
    subst hfe
    exact interpolate_err_form x_cur x0 x1 y0 y1 "inverse_cubic" hf hsub PyError.typeError
      (curve_y_per_inverse_cubic_error _ hxp)

/-- Witness for C8 amended: the linear curve on the degenerate interval
`[0, 0]` and on `[0, 1]`, and `inverse_cubic` at `x_cur = 2` on
`[0, 1]`. -/
theorem interpolate_zero_division_iff_witness :
    interpolate 0 0 0 5 7 "linear" = Except.error PyError.zeroDivisionError ∧
    (∃ y, interpolate 0 0 1 5 7 "linear" = Except.ok y) ∧
    interpolate 2 0 1 5 7 "inverse_cubic" = Except.error PyError.typeError :=
  ⟨(interpolate_zero_division_iff "linear" (by simp [INTERPOLATION_FUNCS]) 0 0 0 5 7).1 rfl,
   (interpolate_zero_division_iff "linear" (by simp [INTERPOLATION_FUNCS]) 0 0 1 5 7).2.2.1
      (by norm_num) (Or.inl rfl),
   (interpolate_zero_division_iff "inverse_cubic"
      (by simp [INTERPOLATION_FUNCS]) 2 0 1 5 7).2.2.2.2 (by norm_num) rfl (by norm_num)⟩
